import Mathlib

/-!
Verification development for the PPT-Generator repository.

The definitions below are a shallow embedding of the normalization and
template-projection pipeline of the repository:

* backend/llm_client.py  — response validation (LLMClient._parse_llm_response),
  the offline fallback structure (LLMClient._create_fallback_structure) and the
  top-level driver (LLMClient.generate_presentation_structure);
* backend/utils.py       — sanitize_filename, split_text_into_sections;
* backend/pptx_builder.py — extract_template_info, create_slide and the
  (second, overriding) definition of create_presentation_from_template.

Python strings are modelled as Lean String (a structure over List Char);
Python dynamic JSON-shaped values as the inductive JVal; Python exceptions as
Except; mutation of the document as explicit state passing.
-/

namespace PPTGen

/-- Characters treated as whitespace by Python str.strip and the regex
class backslash-s (ASCII range). -/
def isPySpace (c : Char) : Bool :=
  c = ' ' || c = '\t' || c = '\n' || c = '\r' || c = '\x0b' || c = '\x0c'

/-- Python str.strip() on a character list: drop whitespace from both ends. -/
def pyStripL (cs : List Char) : List Char :=
  ((cs.dropWhile isPySpace).reverse.dropWhile isPySpace).reverse

/-- Python str.strip() on strings. -/
def pyStrip (s : String) : String := String.mk (pyStripL s.data)

/-- Python s.split with a two-newline separator, as in
text_content.split in LLMClient._create_fallback_structure. -/
def splitNN : List Char → List (List Char)
  | [] => [[]]
  | [c] => [[c]]
  | a :: b :: rest =>
    if a = '\n' ∧ b = '\n' then [] :: splitNN rest
    else
      match splitNN (b :: rest) with
      | [] => [[a]]
      | s :: ss => (a :: s) :: ss

/-- Python s.split on a single newline character. -/
def splitNL1 : List Char → List (List Char)
  | [] => [[]]
  | c :: rest =>
    if c = '\n' then [] :: splitNL1 rest
    else
      match splitNL1 rest with
      | [] => [[c]]
      | s :: ss => (c :: s) :: ss

/-- String wrapper for splitNN. -/
def pySplitNN (s : String) : List String := (splitNN s.data).map String.mk

/-- String wrapper for splitNL1. -/
def pySplitNL (s : String) : List String := (splitNL1 s.data).map String.mk

/-- Python newline.join(lines). -/
def joinNL : List String → String
  | [] => ""
  | [s] => s
  | s :: rest => s ++ "\n" ++ joinNL rest

/-- Python slicing s[:n]. -/
def pyTake (s : String) (n : Nat) : String := String.mk (s.data.take n)

/-- Dynamically shaped JSON-like value, the result of json.loads in
LLMClient._parse_llm_response. -/
inductive JVal where
  | jstr (s : String)
  | jnum (n : Int)
  | jbool (b : Bool)
  | jnull
  | jlist (xs : List JVal)
  | jdict (fields : List (String × JVal))

/-- Slide dictionary as produced by the normalizer (a validated_slide dict in
LLMClient._parse_llm_response, or a fallback slide dict in
LLMClient._create_fallback_structure). -/
structure PySlide where
  title : JVal
  type_ : JVal
  content : JVal
  speaker_notes : Option String

/-- Presentation dictionary: title, subtitle and the slide list. -/
structure PyDeck where
  title : JVal
  subtitle : JVal
  slides : List PySlide

/-- Python dict.get(key, default) over an association list. -/
def jGetD (kvs : List (String × JVal)) (k : String) (d : JVal) : JVal :=
  (kvs.lookup k).getD d

/-- Coercion of bullets content (lines 186-192): string content is split into
stripped non-empty lines and capped at 6; list content is capped at 6; any
other dynamic value is left as is. -/
def bulletizeContent : JVal → JVal
  | .jstr s =>
      .jlist (((((pySplitNL s).map pyStrip).filter (fun l => l ≠ "")).take 6).map JVal.jstr)
  | .jlist l => .jlist (l.take 6)
  | other => other

/-- Normalization of one slide entry: the body of the for-loop of
LLMClient._parse_llm_response (lines 179-194).  Absent title defaults to the
positional name, absent type to the string content, absent content to a
positional placeholder; when the (post-default) type equals the string
bullets, the content is coerced by bulletizeContent. -/
def validateSlide (i : Nat) (slide : List (String × JVal)) : PySlide :=
  let title := jGetD slide "title" (.jstr ("Slide " ++ toString (i + 1)))
  let ty := jGetD slide "type" (.jstr "content")
  let content := jGetD slide "content" (.jstr ("Content for slide " ++ toString (i + 1)))
  let content :=
    match ty with
    | .jstr t => if t = "bullets" then bulletizeContent content else content
    | _ => content
  { title := title, type_ := ty, content := content, speaker_notes := none }

/-- Iteration of LLMClient._parse_llm_response over the slide entries:
entries that are not dictionaries are skipped but still consume an index. -/
def validateSlides (i : Nat) : List JVal → List PySlide
  | [] => []
  | JVal.jdict kvs :: rest => validateSlide i kvs :: validateSlides (i + 1) rest
  | _ :: rest => validateSlides (i + 1) rest

/-- Validation part of LLMClient._parse_llm_response, applied to the decoded
JSON value (lines 160-197): the value must be a dictionary with a slides key
holding a non-empty list; title and subtitle are defaulted; each slide entry
is normalized independently by validateSlide. -/
def parseCore (data : JVal) : Except String PyDeck :=
  match data with
  | .jdict kvs =>
    match kvs.lookup "slides" with
    | none => .error "Invalid response structure"
    | some slidesVal =>
      let title := jGetD kvs "title" (.jstr "AI Generated Presentation")
      let subtitle := jGetD kvs "subtitle" (.jstr "Created with AI")
      match slidesVal with
      | .jlist slides =>
        if slides.isEmpty then .error "No slides generated"
        else .ok { title := title, subtitle := subtitle, slides := validateSlides 0 slides }
      | _ => .error "No slides generated"
  | _ => .error "Invalid response structure"

/-- Paragraph extraction of LLMClient._create_fallback_structure line 209:
split on blank-line separators, strip, keep non-empty. -/
def fallbackParagraphs (text : String) : List String :=
  (((splitNN text.data).map pyStripL).filter (fun p => p ≠ [])).map String.mk

/-- Greedy chunk accumulation of LLMClient._create_fallback_structure
lines 210-222: paragraphs are appended to the current chunk while the length
sum stays under 500; otherwise the current chunk (if non-empty) is emitted and
a new chunk starts.  A paragraph longer than the bound alone is not split
further. -/
def fallbackChunksGo : List String → String → List String
  | [], current => if current ≠ "" then [pyStrip current] else []
  | p :: ps, current =>
    if current.length + p.length < 500 then
      fallbackChunksGo ps (current ++ p ++ "\n\n")
    else
      (if current ≠ "" then [pyStrip current] else []) ++ fallbackChunksGo ps (p ++ "\n\n")

/-- Chunk list computed by LLMClient._create_fallback_structure. -/
def fallbackChunks (text : String) : List String :=
  fallbackChunksGo (fallbackParagraphs text) ""

/-- List.map with the element index, used to model Python enumerate. -/
def mapIdxGo (f : Nat → α → β) (i : Nat) : List α → List β
  | [] => []
  | x :: xs => f i x :: mapIdxGo f (i + 1) xs

/-- Title and content extraction from one chunk (lines 227-239): the
stripped first line becomes the title when shorter than 100 characters and
the remaining lines the content; otherwise the positional name stays and the
whole chunk is the content. -/
def fallbackTitleContent (i : Nat) (chunk : String) : String × String :=
  match pySplitNL chunk with
  | [] => ("Key Point " ++ toString (i + 1), chunk)
  | l0 :: rest =>
    let first := pyStrip l0
    if first.length < 100 then (first, pyStrip (joinNL rest))
    else ("Key Point " ++ toString (i + 1), chunk)

/-- Slide construction from one chunk, LLMClient._create_fallback_structure
lines 226-254: multi-line remaining content becomes a bullets slide capped at
5 entries, otherwise a content slide capped at 800 characters. -/
def mkFallbackSlide (i : Nat) (chunk : String) : PySlide :=
  let title := (fallbackTitleContent i chunk).1
  let content := (fallbackTitleContent i chunk).2
  if ('\n' ∈ content.data) ∧ (pySplitNL content).length > 1 then
    let bullets := (((pySplitNL content).map pyStrip).filter (fun l => l ≠ ""))
    { title := .jstr title, type_ := .jstr "bullets",
      content := .jlist ((bullets.take 5).map JVal.jstr), speaker_notes := none }
  else
    { title := .jstr title, type_ := .jstr "content",
      content := .jstr (pyTake content 800), speaker_notes := none }

/-- LLMClient._create_fallback_structure: deterministic offline deck
construction; at most the first 8 chunks become slides, and a deck with no
chunk-derived slides still gets one slide holding the capped source text. -/
def createFallbackStructure (textContent guidance : String) : PyDeck :=
  let slides := mapIdxGo mkFallbackSlide 0 ((fallbackChunks textContent).take 8)
  { title := .jstr "AI Generated Presentation"
    subtitle := .jstr "Based on your content"
    slides :=
      if slides.isEmpty then
        [{ title := .jstr "Your Content", type_ := .jstr "content",
           content := .jstr (pyTake textContent 800), speaker_notes := none }]
      else slides }

/-- LLMClient.generate_presentation_structure: the provider call and JSON
decoding are modelled by resp (error = provider failure, timeout, or raw text
with no decodable structured object); a successful decode goes through
parseCore, and any failure in the structured path falls back to
createFallbackStructure on the original source text.  Speaker-note generation
(which never raises: LLMClient._generate_speaker_notes absorbs its own
errors) is modelled by noteFor and is applied only on the structured path. -/
def generatePresentationStructure (resp : Except String JVal)
    (noteFor : PySlide → String) (textContent guidance : String) : PyDeck :=
  match resp with
  | .error _ => createFallbackStructure textContent guidance
  | .ok v =>
    match parseCore v with
    | .error _ => createFallbackStructure textContent guidance
    | .ok deck =>
      { deck with slides := deck.slides.map (fun s => { s with speaker_notes := some (noteFor s) }) }

/-- Hypothesis of claim C1: every provider call errors, or its raw response
cannot be parsed as the structured object. -/
def structuredParseFails (resp : Except String JVal) : Prop :=
  ∀ v, resp = .ok v → (parseCore v).isOk = false

/-! ## backend/utils.py -/

/-- Characters replaced by an underscore in sanitize_filename (the
invalid_chars character class, including both path separators). -/
def invalidFileChar (c : Char) : Bool :=
  c = '<' || c = '>' || c = ':' || c = '"' || c = '|' || c = '?' || c = '*' ||
  c = '\\' || c = '/'

/-- Control characters removed by sanitize_filename (range x00-x1f and x7f). -/
def isCtlChar (c : Char) : Bool := c.toNat ≤ 0x1f || c.toNat = 0x7f

/-- Character class of the underscore-or-whitespace run collapse. -/
def isUnderscoreOrSpace (c : Char) : Bool := c = '_' || isPySpace c

/-- Collapse of adjacent underscores; applied after every
underscore-or-whitespace character has been mapped to an underscore, it
realizes the regex replacement of such runs by a single underscore. -/
def squeezeUnd : List Char → List Char
  | [] => []
  | [c] => [c]
  | a :: b :: rest =>
    if a = '_' && b = '_' then squeezeUnd (b :: rest)
    else a :: squeezeUnd (b :: rest)

/-- Python strip with an explicit character set. -/
def pyStripChars (p : Char → Bool) (cs : List Char) : List Char :=
  ((cs.dropWhile p).reverse.dropWhile p).reverse

/-- Python rstrip with an explicit character set. -/
def pyRStrip (p : Char → Bool) (cs : List Char) : List Char :=
  (cs.reverse.dropWhile p).reverse

/-- Character set of the strip call following run collapsing. -/
def stripDotUnd (c : Char) : Bool := c = ' ' || c = '.' || c = '_'

/-- Reserved device names avoided by sanitize_filename. -/
def reservedNames : List String :=
  ["CON", "PRN", "AUX", "NUL",
   "COM1", "COM2", "COM3", "COM4", "COM5", "COM6", "COM7", "COM8", "COM9",
   "LPT1", "LPT2", "LPT3", "LPT4", "LPT5", "LPT6", "LPT7", "LPT8", "LPT9"]

/-- First half of sanitize_filename (lines 72-76): invalid characters are
replaced by underscores, control characters removed, underscore-or-whitespace
runs collapsed to single underscores (realized as a character map followed by
collapsing adjacent underscores), and the result stripped of spaces, dots and
underscores at both ends. -/
def sanStage (cs : List Char) : List Char :=
  pyStripChars stripDotUnd
    (squeezeUnd
      (((cs.map (fun c => if invalidFileChar c then '_' else c)).filter
          (fun c => !isCtlChar c)).map
        (fun c => if isUnderscoreOrSpace c then '_' else c)))

/-- Truncation step of sanitize_filename (lines 81-82): when over the cap,
cut at the cap and strip trailing underscores and dots. -/
def sanTrunc (s5 : List Char) (maxLength : Nat) : List Char :=
  if s5.length > maxLength then pyRStrip (fun c => c = '_' || c = '.') (s5.take maxLength)
  else s5

/-- Reserved-device-name guard of sanitize_filename (lines 85-91): a result
matching a reserved name case-insensitively is prefixed with an underscore. -/
def sanReserved (s7 : List Char) : List Char :=
  if String.mk (s7.map Char.toUpper) ∈ reservedNames then '_' :: s7 else s7

/-- Second half of sanitize_filename (lines 81-93): truncation with trailing
underscore-dot strip when over the cap, an unconditional trailing space-dot
strip, and the reserved-device-name guard. -/
def sanFinish (s5 : List Char) (maxLength : Nat) : List Char :=
  sanReserved (pyRStrip (fun c => c = ' ' || c = '.') (sanTrunc s5 maxLength))

/-- Implementation of sanitize_filename over character lists, following
backend/utils.py lines 64-93 step by step. -/
def sanitizeFilenameL (cs : List Char) (maxLength : Nat) : List Char :=
  if cs = [] then "presentation".data
  else
    let s4 := sanStage cs
    sanFinish (if s4 = [] then "presentation".data else s4) maxLength

/-- utils.sanitize_filename. -/
def sanitizeFilename (filename : String) (maxLength : Nat := 100) : String :=
  String.mk (sanitizeFilenameL filename.data maxLength)

/-- Python replace of a carriage-return line-feed pair by a line feed. -/
def replCRLF : List Char → List Char
  | [] => []
  | [c] => [c]
  | a :: b :: rest =>
    if a = '\r' ∧ b = '\n' then '\n' :: replCRLF rest
    else a :: replCRLF (b :: rest)

/-- Remainder after the blank-line separator starting at a line feed: the
regex engine, matching a line feed, a greedy whitespace run and a final line
feed, consumes up to the last line feed of the maximal whitespace run that
follows; none when that run holds no line feed. -/
def afterLastNL (rest : List Char) : Option (List Char) :=
  let ws := rest.takeWhile isPySpace
  if '\n' ∈ ws then
    some (rest.drop (ws.length - (ws.reverse.takeWhile (fun c => c ≠ '\n')).length))
  else none

/-- Fuelled splitter for the blank-line paragraph regex of
split_text_into_sections; fuel at least the input length plus one makes the
first case unreachable. -/
def splitBlankF : Nat → List Char → List (List Char)
  | 0, cs => [cs]
  | _ + 1, [] => [[]]
  | fuel + 1, c :: rest =>
    if c = '\n' then
      match afterLastNL rest with
      | some rest2 => [] :: splitBlankF fuel rest2
      | none =>
        match splitBlankF fuel rest with
        | [] => [[c]]
        | s :: ss => (c :: s) :: ss
    else
      match splitBlankF fuel rest with
      | [] => [[c]]
      | s :: ss => (c :: s) :: ss

/-- String wrapper for the blank-line paragraph splitter. -/
def pySplitBlank (s : String) : List String :=
  (splitBlankF (s.data.length + 1) s.data).map String.mk

/-- Separator for the sentence splitter: a non-empty whitespace run following
sentence-ending punctuation; returns the remainder after the run. -/
def sentSep (rest : List Char) : Option (List Char) :=
  let ws := rest.takeWhile isPySpace
  if ws.isEmpty then none else some (rest.drop ws.length)

/-- Fuelled splitter for the sentence-boundary regex of
split_text_into_sections: a split happens at a whitespace run preceded (via
lookbehind, so the punctuation stays in the left part) by a period,
exclamation or question mark. -/
def splitSentF : Nat → List Char → List (List Char)
  | 0, cs => [cs]
  | _ + 1, [] => [[]]
  | fuel + 1, c :: rest =>
    if c = '.' ∨ c = '!' ∨ c = '?' then
      match sentSep rest with
      | some rest2 => [c] :: splitSentF fuel rest2
      | none =>
        match splitSentF fuel rest with
        | [] => [[c]]
        | s :: ss => (c :: s) :: ss
    else
      match splitSentF fuel rest with
      | [] => [[c]]
      | s :: ss => (c :: s) :: ss

/-- String wrapper for the sentence splitter. -/
def pySplitSent (s : String) : List String :=
  (splitSentF (s.data.length + 1) s.data).map String.mk

/-- Inner sentence accumulation loop of split_text_into_sections
(lines 122-131): emitted chunks paired with the final temp value.  The length
test ignores the one-character joiner added on success, so an emitted chunk
may exceed the bound by the number of joins. -/
def sentFold (maxLength : Nat) : List String → String → (List String × String)
  | [], temp => ([], temp)
  | s :: ss, temp =>
    if temp.length + s.length ≤ maxLength then sentFold maxLength ss (temp ++ " " ++ s)
    else
      let em := if temp ≠ "" then [pyStrip temp] else []
      let r := sentFold maxLength ss s
      (em ++ r.1, r.2)

/-- Outer paragraph loop of split_text_into_sections (lines 112-135): greedy
accumulation under the bound, emitting the current chunk when full; an
over-long paragraph is handed to the sentence splitter and the last sentence
chunk becomes the new current value. -/
def sectGo (maxLength : Nat) : List String → String → List String
  | [], current => if current ≠ "" then [pyStrip current] else []
  | para :: ps, current =>
    if current.length + para.length ≤ maxLength then
      sectGo maxLength ps (current ++ (if current ≠ "" then "\n\n" else "") ++ para)
    else
      let em := if current ≠ "" then [pyStrip current] else []
      if para.length ≤ maxLength then em ++ sectGo maxLength ps para
      else
        let r := sentFold maxLength (pySplitSent para) ""
        em ++ r.1 ++ sectGo maxLength ps r.2

/-- utils.split_text_into_sections. -/
def splitTextIntoSections (text : String) (maxLength : Nat := 800) : List String :=
  if text = "" then []
  else
    let t := pyStrip (String.mk (replCRLF text.data))
    sectGo maxLength (pySplitBlank t) ""

/-! ## backend/pptx_builder.py

The document model exposes the capability surface the builder consumes from
the external document library: layouts with typed, indexed placeholders;
slides created from a layout inherit its placeholders; free text boxes carry
a position and size in EMU.  Font, size and color attributes of paragraphs
are not modelled: no claim observes them.  Geometry uses 914400 EMU per inch.
-/

/-- RGB color triple. -/
structure RGBv where
  r : Nat
  g : Nat
  b : Nat
deriving DecidableEq

/-- Placeholder of a template layout: semantic type number (2 = BODY,
4 = SUBTITLE, 13 = TITLE), index, geometry. -/
structure PlaceholderM where
  phType : Option Nat
  phIdx : Nat
  left : Int
  top : Int
  width : Int
  height : Int
deriving DecidableEq

/-- Layout of the template. -/
structure LayoutM where
  name : String
  placeholders : List PlaceholderM
deriving DecidableEq

/-- Shape of a pre-existing template slide, as inspected by
extract_template_info: a fill type and, when accessible, a solid fill color
(none models the attribute access that raises and is swallowed). -/
structure ShapeM where
  fillType : Option Nat
  fillColor : Option RGBv
deriving DecidableEq

/-- Pre-existing slide of the template. -/
structure SlideM where
  shapes : List ShapeM
deriving DecidableEq

/-- Template presentation handle. -/
structure PrsModel where
  layouts : List LayoutM
  slides : List SlideM
deriving DecidableEq

/-- Placeholder description collected by extract_template_info. -/
structure PhInfo where
  phType : Option Nat
  phIdx : Nat
  left : Int
  top : Int
  width : Int
  height : Int
deriving DecidableEq

/-- Layout description collected by extract_template_info. -/
structure LayoutInfo where
  name : String
  placeholders : List PhInfo
deriving DecidableEq

/-- Style profile returned by extract_template_info. -/
structure TemplateInfo where
  layouts : List LayoutInfo
  colors : List RGBv
  fonts : List String
  images : List Unit
deriving DecidableEq

/-- Placeholder description of one placeholder. -/
def phInfoOf (p : PlaceholderM) : PhInfo :=
  { phType := p.phType, phIdx := p.phIdx, left := p.left, top := p.top,
    width := p.width, height := p.height }

/-- Color collection of extract_template_info lines 141-149: first-seen-wins
deduplicated solid fill colors of the pre-existing slides; a shape whose
color access fails is skipped by the inner bare except. -/
def collectColors (slides : List SlideM) : List RGBv :=
  slides.foldl
    (fun acc sl =>
      sl.shapes.foldl
        (fun acc sh =>
          match sh.fillType, sh.fillColor with
          | some 1, some c => if c ∈ acc then acc else acc ++ [c]
          | _, _ => acc)
        acc)
    []

/-- Built-in default palette substituted when the template yields no color. -/
def defaultColors : List RGBv :=
  [⟨44, 62, 80⟩, ⟨52, 152, 219⟩, ⟨46, 204, 113⟩, ⟨241, 196, 15⟩,
   ⟨231, 76, 60⟩, ⟨155, 89, 182⟩, ⟨149, 165, 166⟩]

/-- pptx_builder.extract_template_info on the success path (the enclosing
try never fails in this total model; the except branch that would return two
colors and two fonts is unreachable).  The fonts list is initialized empty
and never populated. -/
def extractTemplateInfo (prs : PrsModel) : TemplateInfo :=
  let layouts := prs.layouts.map (fun l => LayoutInfo.mk l.name (l.placeholders.map phInfoOf))
  let colors := collectColors prs.slides
  { layouts := layouts
    colors := if colors.isEmpty then defaultColors else colors
    fonts := []
    images := [] }

/-- Content value of a slide dictionary handed to the assembler: the
canonical wire schema allows a string or a list of strings. -/
inductive CVal where
  | str (s : String)
  | list (xs : List String)
deriving DecidableEq

/-- Slide dictionary consumed by create_slide. -/
structure SlideData where
  title : Option String
  type_ : Option String
  content : Option CVal
  speaker_notes : Option String
deriving DecidableEq

/-- Presentation dictionary consumed by create_presentation_from_template. -/
structure PresData where
  title : Option String
  subtitle : Option String
  slides : List SlideData
deriving DecidableEq

/-- Placeholder of a built slide, inherited from the layout, holding its
bound paragraphs. -/
structure BuiltPh where
  phType : Option Nat
  phIdx : Nat
  paras : List String
deriving DecidableEq

/-- Free text box synthesized on a built slide (position and size in EMU). -/
structure TextBoxM where
  left : Nat
  top : Nat
  width : Nat
  height : Nat
  paras : List String
deriving DecidableEq

/-- Slide of the output document. -/
structure BuiltSlide where
  placeholders : List BuiltPh
  textboxes : List TextBoxM
  notes : Option String
deriving DecidableEq

/-- Normalization of a Python index: negative indices wrap around the
length. -/
def pyNormIdx (n : Nat) (i : Int) : Int := if i < 0 then i + n else i

/-- Python list indexing with negative-index wrap-around; out of range
raises, modelled as an error. -/
def pyIndex (xs : List α) (i : Int) : Except String α :=
  if 0 ≤ pyNormIdx xs.length i then
    match xs[(pyNormIdx xs.length i).toNat]? with
    | some x => .ok x
    | none => .error "IndexError"
  else .error "IndexError"

/-- Layout index selection of create_slide lines 179-186 (n is the number of
template layouts). -/
def chooseLayoutIndex (slideType : String) (n : Nat) : Int :=
  if slideType = "content" || slideType = "bullets" then min 1 ((n : Int) - 1)
  else if slideType = "title" then 0
  else if slideType = "image" || slideType = "chart" then
    (if (n : Int) > 2 then min 2 ((n : Int) - 1) else 1)
  else 0

/-- Write paragraphs into the first placeholder satisfying the predicate. -/
def setFirstPh (pred : BuiltPh → Bool) (paras : List String) :
    List BuiltPh → List BuiltPh
  | [] => []
  | p :: rest =>
    if pred p then { p with paras := paras } :: rest
    else p :: setFirstPh pred paras rest

/-- Placeholder found by shapes.title: index zero. -/
def isTitlePh (p : BuiltPh) : Bool := p.phIdx = 0

/-- SUBTITLE placeholder: type number 4. -/
def isSubtitlePh (p : BuiltPh) : Bool := p.phType = some 4

/-- BODY placeholder: type number 2. -/
def isBodyPh (p : BuiltPh) : Bool := p.phType = some 2

/-- Presence of a placeholder kind on a built slide. -/
def hasPh (pred : BuiltPh → Bool) (s : BuiltSlide) : Bool := s.placeholders.any pred

/-- Python truthiness of a content value. -/
def cvalTruthy : CVal → Bool
  | .str s => s ≠ ""
  | .list l => !l.isEmpty

/-- Paragraphs written for a content value by add_content_slide: list items
are stripped one paragraph each; a string is assigned whole. -/
def cvalParas : CVal → List String
  | .str s => [s]
  | .list l => l.map pyStrip

/-- Effective content value where the dictionary default is the empty
string (add_title_content and add_content_slide). -/
def contentValOf (data : SlideData) : CVal := data.content.getD (CVal.str "")

/-- pptx_builder.add_title_content: bind the content into the first SUBTITLE
placeholder when one exists and the content is truthy.  Assigning a list to
the text property raises inside the local try and is absorbed, leaving the
slide unchanged. -/
def addTitleContent (sl : BuiltSlide) (data : SlideData) : BuiltSlide :=
  if hasPh isSubtitlePh sl then
    match contentValOf data with
    | .str s =>
      if s ≠ "" then { sl with placeholders := setFirstPh isSubtitlePh [s] sl.placeholders }
      else sl
    | .list _ => sl
  else sl

/-- Bullet list of add_bullet_content lines 259-261: the dictionary default
is the empty list and string content is wrapped into a one-element list. -/
def bulletListOf (data : SlideData) : List String :=
  match data.content.getD (CVal.list []) with
  | .str s => [s]
  | .list l => l

/-- pptx_builder.add_bullet_content: the bullets are written, stripped, one
paragraph each into the first BODY placeholder when one exists and the list
is non-empty.  With no BODY placeholder the content is dropped: no text box
is synthesized on this path. -/
def addBulletContent (sl : BuiltSlide) (data : SlideData) : BuiltSlide :=
  if hasPh isBodyPh sl ∧ bulletListOf data ≠ [] then
    { sl with placeholders := setFirstPh isBodyPh ((bulletListOf data).map pyStrip) sl.placeholders }
  else sl

/-- pptx_builder.add_content_slide: the content goes into the first BODY
placeholder; when none exists a free text box at one inch left, two inches
top, eight by four inches (in EMU) is synthesized, and the truthy content is
written into whichever shape was found or created. -/
def addContentSlide (sl : BuiltSlide) (data : SlideData) : BuiltSlide :=
  if hasPh isBodyPh sl then
    if cvalTruthy (contentValOf data) then
      { sl with placeholders := setFirstPh isBodyPh (cvalParas (contentValOf data)) sl.placeholders }
    else sl
  else
    { sl with
      textboxes := sl.textboxes ++
        [{ left := 914400, top := 1828800, width := 7315200, height := 3657600,
           paras := if cvalTruthy (contentValOf data) then cvalParas (contentValOf data) else [] }] }

/-- Effective title of a slide dictionary: create_slide line 194. -/
def effTitle (data : SlideData) (idx : Nat) : String :=
  data.title.getD ("Slide " ++ toString (idx + 1))

/-- Effective type of a slide dictionary: create_slide line 177. -/
def effType (data : SlideData) : String := data.type_.getD "content"

/-- Slide creation from a layout: python-pptx clones the layout placeholders
onto the new slide (their text starts empty). -/
def cloneLayout (layout : LayoutM) : BuiltSlide :=
  { placeholders := layout.placeholders.map (fun p => ⟨p.phType, p.phIdx, []⟩)
    textboxes := []
    notes := none }

/-- Title binding of create_slide lines 195-207: the title is written into
the index-zero placeholder when one exists; silently dropped otherwise —
there is no else branch at line 195. -/
def titleStep (base : BuiltSlide) (data : SlideData) (idx : Nat) : BuiltSlide :=
  if hasPh isTitlePh base then
    { base with placeholders := setFirstPh isTitlePh [effTitle data idx] base.placeholders }
  else base

/-- Content dispatch of create_slide lines 210-217: unknown types go to
add_content_slide. -/
def contentStep (sl : BuiltSlide) (data : SlideData) : BuiltSlide :=
  if effType data = "title" then addTitleContent sl data
  else if effType data = "bullets" then addBulletContent sl data
  else addContentSlide sl data

/-- Speaker-note attachment of create_slide lines 220-223. -/
def notesStep (sl : BuiltSlide) (data : SlideData) : BuiltSlide :=
  match data.speaker_notes with
  | some notesText => if notesText ≠ "" then { sl with notes := some notesText } else sl
  | none => sl

/-- Slide population of create_slide after the layout was selected and the
slide added: clone the layout placeholders, bind the title, dispatch the
content on the slide type, attach non-empty speaker notes. -/
def buildSlide (layout : LayoutM) (data : SlideData) (idx : Nat) : BuiltSlide :=
  notesStep (contentStep (titleStep (cloneLayout layout) data idx) data) data

/-- Fallible body of create_slide: the only failing operation of the model is
the layout lookup (which in the source happens before the slide is added to
the document). -/
def createSlideCore (layouts : List LayoutM) (data : SlideData) (idx : Nat) :
    Except String BuiltSlide :=
  match pyIndex layouts (chooseLayoutIndex (effType data) layouts.length) with
  | .ok layout => .ok (buildSlide layout data idx)
  | .error e => .error e

/-- pptx_builder.create_slide: the enclosing try absorbs a binding failure,
logging it; the document gains the slide exactly when the body succeeded. -/
def createSlideInto (layouts : List LayoutM) (doc : List BuiltSlide)
    (data : SlideData) (idx : Nat) : List BuiltSlide :=
  match createSlideCore layouts data idx with
  | .ok s => doc ++ [s]
  | .error _ => doc

/-- Content-slide loop of create_presentation_from_template lines 93-94:
slides are processed in order with indices starting at one; a slide whose
binding fails is skipped and the remaining slides continue. -/
def buildContentSlides (layouts : List LayoutM) (i : Nat) :
    List SlideData → List BuiltSlide
  | [] => []
  | d :: ds =>
    (match createSlideCore layouts d i with
     | .ok s => [s]
     | .error _ => []) ++ buildContentSlides layouts (i + 1) ds

/-- Synthesized leading title slide data of create_presentation_from_template
lines 85-89. -/
def titleSlideData (pres : PresData) : SlideData :=
  { title := some (pres.title.getD "AI Generated Presentation")
    type_ := some "title"
    content := some (.str (pres.subtitle.getD ""))
    speaker_notes := none }

/-- pptx_builder.create_presentation_from_template (the second, overriding
definition): every pre-existing slide instance is removed, so assembly starts
from an empty document; with no slide data it returns False (none); otherwise
the synthesized title slide is created at index zero followed by one create
call per slide dictionary, and the assembled document is saved (some). -/
def createPresentationFromTemplate (layouts : List LayoutM) (pres : PresData) :
    Option (List BuiltSlide) :=
  if pres.slides.isEmpty then none
  else
    some (createSlideInto layouts [] (titleSlideData pres) 0 ++
          buildContentSlides layouts 1 pres.slides)

/-! ## Helper lemmas -/

theorem fallback_slides_ne_nil (t g : String) : (createFallbackStructure t g).slides ≠ [] := by
  simp only [createFallbackStructure]
  split
  · simp
  · next h =>
    intro hc
    rw [hc] at h
    simp at h

theorem mem_mapIdxGo {α β : Type} {f : Nat → α → β} {i : Nat} {xs : List α} {b : β}
    (h : b ∈ mapIdxGo f i xs) : ∃ j x, x ∈ xs ∧ b = f j x := by
  induction xs generalizing i with
  | nil => simp [mapIdxGo] at h
  | cons x xs ih =>
    simp only [mapIdxGo, List.mem_cons] at h
    rcases h with h | h
    · exact ⟨i, x, by simp, h⟩
    · obtain ⟨j, y, hy, hb⟩ := ih h
      exact ⟨j, y, by simp [hy], hb⟩

/-! ## Claims -/

/-- C1: for every non-empty source text and any guidance, if every call to the
generation provider errors (or its raw response cannot be parsed as the
structured object), generate_presentation_structure still returns a
presentation dictionary whose slides list is non-empty: the fallback
construction always yields at least one slide. -/
theorem generate_structure_fallback_totality (resp : Except String JVal)
    (noteFor : PySlide → String) (textContent guidance : String)
    (hne : textContent ≠ "") (hfail : structuredParseFails resp) :
    (generatePresentationStructure resp noteFor textContent guidance).slides ≠ [] := by
  cases resp with
  | error e =>
    simpa [generatePresentationStructure] using fallback_slides_ne_nil textContent guidance
  | ok v =>
    have hv := hfail v rfl
    cases hp : parseCore v with
    | error e =>
      simpa [generatePresentationStructure, hp] using fallback_slides_ne_nil textContent guidance
    | ok d =>
      rw [hp] at hv
      simp [Except.isOk, Except.toBool] at hv

/-- Witness for C1 at a concrete erroring provider. -/
theorem generate_structure_fallback_totality_witness :
    (("hello" : String) ≠ "" ∧ structuredParseFails (Except.error "boom")) ∧
    (generatePresentationStructure (Except.error "boom") (fun _ => "") "hello" "").slides ≠ [] :=
  ⟨⟨by decide, fun _ h => nomatch h⟩,
   generate_structure_fallback_totality _ _ _ "" (by decide) (fun _ h => nomatch h)⟩

/-- C4 as stated is false on the code: on a template with zero pre-existing
slides and zero layouts, the palette is indeed exactly the 7 built-in default
colors, but the font list is empty (it is initialized empty and never
populated), not a one-element default list. -/
theorem extract_empty_template_fonts_counterexample :
    (extractTemplateInfo ⟨[], []⟩).colors = defaultColors ∧
    ¬ (extractTemplateInfo ⟨[], []⟩).fonts.length = 1 := by
  constructor
  · rfl
  · decide

/-- C4 (amended): the style extractor applied to a template document with
zero pre-existing slides and zero layouts returns a style profile whose color
palette is exactly the 7 built-in default colors and whose font list is
empty. -/
theorem extract_empty_template_profile :
    extractTemplateInfo ⟨[], []⟩ = ⟨[], defaultColors, [], []⟩ := rfl

theorem validateSlide_title_eq (i : Nat) (kvs : List (String × JVal)) :
    (validateSlide i kvs).title = jGetD kvs "title" (JVal.jstr ("Slide " ++ toString (i + 1))) :=
  rfl

theorem validateSlide_type_eq (i : Nat) (kvs : List (String × JVal)) :
    (validateSlide i kvs).type_ = jGetD kvs "type" (JVal.jstr "content") :=
  rfl

/-- Every slide of the normalized list comes from a dictionary entry of the
input list, at the index the enumeration reached it (non-dictionary entries
are skipped but consume an index). -/
theorem mem_validateSlides {s : PySlide} :
    ∀ {i : Nat} {slides : List JVal}, s ∈ validateSlides i slides →
      ∃ j kvs, slides[j]? = some (JVal.jdict kvs) ∧ s = validateSlide (i + j) kvs := by
  intro i slides
  induction slides generalizing i with
  | nil => intro h; simp [validateSlides] at h
  | cons v rest ih =>
    intro h
    cases v with
    | jdict kvs =>
      simp only [validateSlides, List.mem_cons] at h
      rcases h with rfl | h
      · exact ⟨0, kvs, by simp, by simp⟩
      · obtain ⟨j, kvs', hg, hs⟩ := ih h
        exact ⟨j + 1, kvs', by simpa using hg, by rw [hs]; congr 1; omega⟩
    | jstr t =>
      obtain ⟨j, kvs', hg, hs⟩ := ih h
      exact ⟨j + 1, kvs', by simpa using hg, by rw [hs]; congr 1; omega⟩
    | jnum n =>
      obtain ⟨j, kvs', hg, hs⟩ := ih h
      exact ⟨j + 1, kvs', by simpa using hg, by rw [hs]; congr 1; omega⟩
    | jbool b =>
      obtain ⟨j, kvs', hg, hs⟩ := ih h
      exact ⟨j + 1, kvs', by simpa using hg, by rw [hs]; congr 1; omega⟩
    | jnull =>
      obtain ⟨j, kvs', hg, hs⟩ := ih h
      exact ⟨j + 1, kvs', by simpa using hg, by rw [hs]; congr 1; omega⟩
    | jlist xs =>
      obtain ⟨j, kvs', hg, hs⟩ := ih h
      exact ⟨j + 1, kvs', by simpa using hg, by rw [hs]; congr 1; omega⟩

theorem bulletizeContent_cap (c : JVal) (l : List JVal)
    (h : bulletizeContent c = JVal.jlist l) : l.length ≤ 6 := by
  cases c with
  | jstr s =>
    simp only [bulletizeContent, JVal.jlist.injEq] at h
    subst h
    simpa using Nat.min_le_left 6 _
  | jlist xs =>
    simp only [bulletizeContent, JVal.jlist.injEq] at h
    subst h
    simpa using Nat.min_le_left 6 _
  | jnum n => simp [bulletizeContent] at h
  | jbool b => simp [bulletizeContent] at h
  | jnull => simp [bulletizeContent] at h
  | jdict kvs => simp [bulletizeContent] at h

theorem validateSlide_bullets_cap (i : Nat) (kvs : List (String × JVal)) (l : List JVal)
    (hty : (validateSlide i kvs).type_ = JVal.jstr "bullets")
    (hc : (validateSlide i kvs).content = JVal.jlist l) : l.length ≤ 6 := by
  have hty2 : jGetD kvs "type" (JVal.jstr "content") = JVal.jstr "bullets" := hty
  have hc2 : bulletizeContent
      (jGetD kvs "content" (JVal.jstr ("Content for slide " ++ toString (i + 1)))) =
      JVal.jlist l := by
    simpa [validateSlide, hty2] using hc
  exact bulletizeContent_cap _ _ hc2

theorem mkFallbackSlide_bullets_cap (i : Nat) (c : String) (l : List JVal)
    (hty : (mkFallbackSlide i c).type_ = JVal.jstr "bullets")
    (hc : (mkFallbackSlide i c).content = JVal.jlist l) : l.length ≤ 6 := by
  by_cases h : ('\n' ∈ (fallbackTitleContent i c).2.data) ∧
      (pySplitNL (fallbackTitleContent i c).2).length > 1
  · have hc2 : JVal.jlist
        (((((pySplitNL (fallbackTitleContent i c).2).map pyStrip).filter
          (fun l => l ≠ "")).take 5).map JVal.jstr) = JVal.jlist l := by
      simpa [mkFallbackSlide, h] using hc
    injection hc2 with h2
    rw [← h2]
    simp only [List.length_map, List.length_take]
    omega
  · have hty2 : JVal.jstr "content" = JVal.jstr "bullets" := by
      simpa [mkFallbackSlide, h] using hty
    injection hty2 with h2
    exact absurd h2 (by decide)

/-- Bullet cap of the fallback default slide: its type is the content
string, so the claim is vacuous there. -/
theorem createFallbackStructure_bullets_cap (text guidance : String) (s : PySlide)
    (hs : s ∈ (createFallbackStructure text guidance).slides)
    (hty : s.type_ = JVal.jstr "bullets") (l : List JVal)
    (hc : s.content = JVal.jlist l) : l.length ≤ 6 := by
  simp only [createFallbackStructure] at hs
  split at hs
  · simp only [List.mem_singleton] at hs
    subst hs
    injection hty with h2
    exact absurd h2 (by decide)
  · obtain ⟨j, x, _, rfl⟩ := mem_mapIdxGo hs
    exact mkFallbackSlide_bullets_cap j x l hty hc

/-- C6: for every bullets-typed slide after normalization, whether produced
by the structured parse path or by the fallback path, the content list has at
most 6 entries regardless of how many raw bullet lines or list items the
input contained (the fallback path even caps at 5). -/
theorem bullets_capped_at_six :
    (∀ (i : Nat) (slides : List JVal) (s : PySlide), s ∈ validateSlides i slides →
        s.type_ = JVal.jstr "bullets" → ∀ l, s.content = JVal.jlist l → l.length ≤ 6) ∧
    (∀ (text guidance : String) (s : PySlide), s ∈ (createFallbackStructure text guidance).slides →
        s.type_ = JVal.jstr "bullets" → ∀ l, s.content = JVal.jlist l → l.length ≤ 6) := by
  constructor
  · intro i slides s hs hty l hc
    obtain ⟨j, kvs, _, rfl⟩ := mem_validateSlides hs
    exact validateSlide_bullets_cap (i + j) kvs l hty hc
  · intro text guidance s hs hty l hc
    exact createFallbackStructure_bullets_cap text guidance s hs hty l hc

def c6Kvs : List (String × JVal) :=
  [("type", JVal.jstr "bullets"), ("content", JVal.jlist (List.replicate 8 (JVal.jstr "b")))]

/-- Witness for C6 on a slide arriving with 8 raw bullet entries. -/
theorem bullets_capped_at_six_witness :
    (validateSlide 0 c6Kvs ∈ validateSlides 0 [JVal.jdict c6Kvs] ∧
      (validateSlide 0 c6Kvs).type_ = JVal.jstr "bullets" ∧
      (validateSlide 0 c6Kvs).content = JVal.jlist (List.replicate 6 (JVal.jstr "b"))) ∧
    (List.replicate 6 (JVal.jstr "b")).length ≤ 6 :=
  ⟨⟨List.mem_singleton.mpr rfl, rfl, rfl⟩,
   bullets_capped_at_six.1 0 [JVal.jdict c6Kvs] (validateSlide 0 c6Kvs)
     (List.mem_singleton.mpr rfl) rfl (List.replicate 6 (JVal.jstr "b")) rfl⟩

/-- Slide type enumeration named by the specification. -/
def slideTypeEnum : List String := ["title", "bullets", "content", "conclusion"]

def c5Kvs : List (String × JVal) :=
  [("title", JVal.jstr ""), ("type", JVal.jstr "banana"), ("content", JVal.jstr "x")]

/-- C5 as stated is false on the code: normalization replaces only an absent
title (a present blank title is kept as the empty string) and only an absent
type (a present unknown type such as the string banana is kept verbatim). -/
theorem normalize_title_type_counterexample :
    ¬ (∀ (slides : List JVal) (s : PySlide), s ∈ validateSlides 0 slides →
        (∃ t, s.title = JVal.jstr t ∧ t ≠ "") ∧
        (∃ ty, s.type_ = JVal.jstr ty ∧ ty ∈ slideTypeEnum)) := by
  intro h
  have hm : validateSlide 0 c5Kvs ∈ validateSlides 0 [JVal.jdict c5Kvs] :=
    List.mem_singleton.mpr rfl
  obtain ⟨⟨t, ht, hne⟩, -⟩ := h _ _ hm
  have ht2 : JVal.jstr "" = JVal.jstr t :=
    calc JVal.jstr "" = (validateSlide 0 c5Kvs).title := rfl
    _ = JVal.jstr t := ht
  injection ht2 with h2
  exact hne h2.symm

/-- C5 (amended): after normalization, every slide of the result arises from
a dictionary entry of the input at some index j; an absent title key yields
the non-empty positional default, while a present title value (blank
included) is kept verbatim; an absent type key yields the content type,
while a present type value (unknown strings included) is kept verbatim. -/
theorem normalize_slide_defaults (slides : List JVal) (s : PySlide)
    (hs : s ∈ validateSlides 0 slides) :
    ∃ j kvs, slides[j]? = some (JVal.jdict kvs) ∧ s = validateSlide j kvs ∧
      (kvs.lookup "title" = none → s.title = JVal.jstr ("Slide " ++ toString (j + 1))) ∧
      (∀ v, kvs.lookup "title" = some v → s.title = v) ∧
      (kvs.lookup "type" = none → s.type_ = JVal.jstr "content") ∧
      (∀ v, kvs.lookup "type" = some v → s.type_ = v) := by
  obtain ⟨j, kvs, hg, hs2⟩ := mem_validateSlides hs
  rw [Nat.zero_add] at hs2
  subst hs2
  refine ⟨j, kvs, hg, rfl, ?_, ?_, ?_, ?_⟩
  · intro hnone; rw [validateSlide_title_eq]; simp [jGetD, hnone]
  · intro v hv; rw [validateSlide_title_eq]; simp [jGetD, hv]
  · intro hnone; rw [validateSlide_type_eq]; simp [jGetD, hnone]
  · intro v hv; rw [validateSlide_type_eq]; simp [jGetD, hv]

/-- Witness for the amended C5 on a slide entry with no title and no type
key. -/
theorem normalize_slide_defaults_witness :
    (validateSlide 0 [] ∈ validateSlides 0 [JVal.jdict []]) ∧
    ∃ j kvs, ([JVal.jdict []] : List JVal)[j]? = some (JVal.jdict kvs) ∧
      validateSlide 0 [] = validateSlide j kvs ∧
      (kvs.lookup "title" = none →
        (validateSlide 0 []).title = JVal.jstr ("Slide " ++ toString (j + 1))) ∧
      (∀ v, kvs.lookup "title" = some v → (validateSlide 0 []).title = v) ∧
      (kvs.lookup "type" = none → (validateSlide 0 []).type_ = JVal.jstr "content") ∧
      (∀ v, kvs.lookup "type" = some v → (validateSlide 0 []).type_ = v) :=
  ⟨List.mem_singleton.mpr rfl, normalize_slide_defaults _ _ (List.mem_singleton.mpr rfl)⟩

theorem pyTake_length_le (s : String) (n : Nat) : (pyTake s n).length ≤ n := by
  show (s.data.take n).length ≤ n
  rw [List.length_take]
  exact Nat.min_le_left _ _

def long801 : String := String.mk (List.replicate 801 'a')

theorem long801_length : long801.length = 801 := by
  show (List.replicate 801 'a').length = 801
  rw [List.length_replicate]

def c8Kvs : List (String × JVal) :=
  [("title", JVal.jstr "t"), ("type", JVal.jstr "content"), ("content", JVal.jstr long801)]

/-- C8 as stated is false on the code: the structured parse path never caps
free-text content; a content-typed slide arriving with an 801-character
string keeps it unchanged.  Only the fallback path caps at 800. -/
theorem freetext_cap_counterexample :
    ¬ (∀ (slides : List JVal) (s : PySlide), s ∈ validateSlides 0 slides →
        s.type_ ≠ JVal.jstr "bullets" → ∀ str, s.content = JVal.jstr str → str.length ≤ 800) := by
  intro h
  have hm : validateSlide 0 c8Kvs ∈ validateSlides 0 [JVal.jdict c8Kvs] :=
    List.mem_singleton.mpr rfl
  have hty : (validateSlide 0 c8Kvs).type_ ≠ JVal.jstr "bullets" := by
    intro hh
    have h3 : JVal.jstr "content" = JVal.jstr "bullets" :=
      calc JVal.jstr "content" = (validateSlide 0 c8Kvs).type_ := rfl
      _ = JVal.jstr "bullets" := hh
    injection h3 with h4
    exact absurd h4 (by decide)
  have hlen := h _ _ hm hty long801 rfl
  rw [long801_length] at hlen
  omega

/-- C8 (amended): the 800-unit free-text cap holds on the fallback path:
every fallback slide whose content is a string has content of length at most
800 (bullets slides carry list content and are unaffected).  The structured
parse path does not cap free text. -/
theorem fallback_freetext_cap (text guidance : String) (s : PySlide)
    (hs : s ∈ (createFallbackStructure text guidance).slides)
    (str : String) (hc : s.content = JVal.jstr str) : str.length ≤ 800 := by
  simp only [createFallbackStructure] at hs
  split at hs
  · simp only [List.mem_singleton] at hs
    subst hs
    have hc2 : JVal.jstr (pyTake text 800) = JVal.jstr str := hc
    injection hc2 with h2
    rw [← h2]
    exact pyTake_length_le _ _
  · obtain ⟨j, c, _, rfl⟩ := mem_mapIdxGo hs
    by_cases h : ('\n' ∈ (fallbackTitleContent j c).2.data) ∧
        (pySplitNL (fallbackTitleContent j c).2).length > 1
    · simp [mkFallbackSlide, h] at hc
    · have hc2 : JVal.jstr (pyTake (fallbackTitleContent j c).2 800) = JVal.jstr str := by
        simpa [mkFallbackSlide, h] using hc
      injection hc2 with h2
      rw [← h2]
      exact pyTake_length_le _ _

/-- Witness for the amended C8 on a one-word source text. -/
theorem fallback_freetext_cap_witness :
    (mkFallbackSlide 0 "hi" ∈ (createFallbackStructure "hi" "").slides ∧
      (mkFallbackSlide 0 "hi").content = JVal.jstr "") ∧
    ("" : String).length ≤ 800 :=
  ⟨⟨List.mem_singleton.mpr rfl, rfl⟩,
   fallback_freetext_cap "hi" "" _ (List.mem_singleton.mpr rfl) "" rfl⟩

theorem dropWhile_eq_self_of_all {α : Type} (p : α → Bool) :
    ∀ l : List α, (∀ c ∈ l, p c = false) → l.dropWhile p = l
  | [], _ => rfl
  | c :: rest, h => by
    rw [List.dropWhile_cons, if_neg (by rw [h c (by simp)]; simp)]

theorem pyStripL_no_space (cs : List Char) (h : ∀ c ∈ cs, isPySpace c = false) :
    pyStripL cs = cs := by
  unfold pyStripL
  rw [dropWhile_eq_self_of_all _ cs h,
      dropWhile_eq_self_of_all _ cs.reverse (fun c hc => h c (List.mem_reverse.mp hc)),
      List.reverse_reverse]

theorem pyStripL_append_nn (a : Char) (ys : List Char)
    (h : ∀ c ∈ a :: ys, isPySpace c = false) :
    pyStripL ((a :: ys) ++ ['\n', '\n']) = a :: ys := by
  unfold pyStripL
  rw [List.cons_append, List.dropWhile_cons,
      if_neg (by rw [h a (by simp)]; simp), ← List.cons_append,
      List.reverse_append]
  have h2 : (['\n', '\n'] : List Char).reverse = ['\n', '\n'] := rfl
  rw [h2]
  show (List.dropWhile isPySpace ('\n' :: '\n' :: (a :: ys).reverse)).reverse = a :: ys
  rw [List.dropWhile_cons, if_pos (by decide), List.dropWhile_cons, if_pos (by decide),
      dropWhile_eq_self_of_all _ _ (fun c hc => h c (List.mem_reverse.mp hc)),
      List.reverse_reverse]

theorem splitNN_no_nl : ∀ cs : List Char, '\n' ∉ cs → splitNN cs = [cs]
  | [], _ => rfl
  | [_], _ => rfl
  | a :: b :: rest, h => by
    have ha : ¬(a = '\n' ∧ b = '\n') := by
      rintro ⟨h1, -⟩
      exact h (by simp [h1])
    have ih := splitNN_no_nl (b :: rest) (fun hm => h (List.mem_cons_of_mem _ hm))
    rw [splitNN, if_neg ha, ih]

theorem splitBlankF_no_nl : ∀ (cs : List Char) (fuel : Nat), '\n' ∉ cs →
    splitBlankF fuel cs = [cs]
  | _, 0, _ => rfl
  | [], _ + 1, _ => rfl
  | c :: rest, fuel + 1, h => by
    have hc : ¬ c = '\n' := fun e => h (by simp [e])
    have ih := splitBlankF_no_nl rest fuel (fun hm => h (List.mem_cons_of_mem _ hm))
    rw [splitBlankF, if_neg hc, ih]

theorem splitSentF_no_punct : ∀ (cs : List Char) (fuel : Nat),
    (∀ c ∈ cs, ¬(c = '.' ∨ c = '!' ∨ c = '?')) → splitSentF fuel cs = [cs]
  | _, 0, _ => rfl
  | [], _ + 1, _ => rfl
  | c :: rest, fuel + 1, h => by
    have hc : ¬(c = '.' ∨ c = '!' ∨ c = '?') := h c (by simp)
    have ih := splitSentF_no_punct rest fuel (fun x hm => h x (List.mem_cons_of_mem _ hm))
    rw [splitSentF, if_neg hc, ih]

theorem replCRLF_no_cr : ∀ cs : List Char, '\r' ∉ cs → replCRLF cs = cs
  | [], _ => rfl
  | [_], _ => rfl
  | a :: b :: rest, h => by
    have ha : ¬(a = '\r' ∧ b = '\n') := by
      rintro ⟨h1, -⟩
      exact h (by simp [h1])
    rw [replCRLF, if_neg ha, replCRLF_no_cr (b :: rest) (fun hm => h (List.mem_cons_of_mem _ hm))]

theorem long801_nonspace : ∀ c ∈ long801.data, isPySpace c = false := by
  intro c hc
  rw [List.eq_of_mem_replicate hc]
  decide

theorem long801_no_nl : '\n' ∉ long801.data := by
  intro h
  exact absurd (List.eq_of_mem_replicate h) (by decide)

theorem long801_data_cons : long801.data = 'a' :: List.replicate 800 'a' := rfl

theorem long801_ne_empty : long801 ≠ "" := by
  intro h
  have h2 := congrArg String.length h
  rw [long801_length] at h2
  simp at h2

theorem pyStrip_long801 : pyStrip long801 = long801 := by
  show String.mk (pyStripL long801.data) = long801
  rw [pyStripL_no_space _ long801_nonspace]

theorem fallbackChunks_long801 : fallbackChunks long801 = [long801] := by
  have hne : long801.data ≠ [] := by
    rw [long801_data_cons]
    exact List.cons_ne_nil _ _
  have hp : fallbackParagraphs long801 = [long801] := by
    unfold fallbackParagraphs
    rw [splitNN_no_nl _ long801_no_nl]
    simp only [List.map_cons, List.map_nil]
    rw [pyStripL_no_space _ long801_nonspace]
    rw [List.filter_cons, if_pos (decide_eq_true hne)]
    rfl
  unfold fallbackChunks
  rw [hp, fallbackChunksGo]
  rw [if_neg (show ¬(("" : String).length + long801.length < 500) from by
        rw [String.length_empty, long801_length]; omega)]
  rw [if_neg (show ¬(("" : String) ≠ "") from by simp)]
  simp only [List.nil_append]
  rw [fallbackChunksGo]
  rw [if_pos (show long801 ++ "\n\n" ≠ "" from by
        intro h
        have h2 := congrArg String.data h
        simp only [String.data_append] at h2
        rcases List.append_eq_nil.mp h2 with ⟨h3, -⟩
        exact long801_ne_empty (String.ext h3))]
  have h4 : (long801 ++ "\n\n").data = long801.data ++ ['\n', '\n'] := rfl
  show [pyStrip (long801 ++ "\n\n")] = [long801]
  unfold pyStrip
  rw [h4, long801_data_cons, pyStripL_append_nn _ _ (by rw [← long801_data_cons]; exact long801_nonspace)]
  rw [← long801_data_cons]

theorem pySplitBlank_long801 : pySplitBlank long801 = [long801] := by
  unfold pySplitBlank
  rw [splitBlankF_no_nl _ _ long801_no_nl]
  rfl

theorem pySplitSent_long801 : pySplitSent long801 = [long801] := by
  unfold pySplitSent
  rw [splitSentF_no_punct _ _ (by
    intro c hc
    rw [List.eq_of_mem_replicate hc]
    decide)]
  rfl

theorem splitSections_long801 : splitTextIntoSections long801 = [long801] := by
  unfold splitTextIntoSections
  rw [if_neg long801_ne_empty]
  have h1 : pyStrip (String.mk (replCRLF long801.data)) = long801 := by
    rw [replCRLF_no_cr _ (by
      intro h
      exact absurd (List.eq_of_mem_replicate h) (by decide))]
    show String.mk (pyStripL long801.data) = long801
    rw [pyStripL_no_space _ long801_nonspace]
  rw [h1]
  show sectGo 800 (pySplitBlank long801) "" = [long801]
  have hbig : ¬(("" : String).length + long801.length ≤ 800) := by
    rw [String.length_empty, long801_length]; omega
  have hsf : sentFold 800 [long801] "" = ([], long801) := by
    rw [sentFold, if_neg hbig, if_neg (show ¬(("" : String) ≠ "") from by simp), sentFold]
    rfl
  have hsect0 : sectGo 800 ([] : List String) long801 = [long801] := by
    rw [sectGo, if_pos long801_ne_empty, pyStrip_long801]
  rw [pySplitBlank_long801, sectGo, if_neg hbig,
      if_neg (show ¬(("" : String) ≠ "") from by simp),
      if_neg (show ¬(long801.length ≤ 800) from by rw [long801_length]; omega),
      pySplitSent_long801, hsf]
  show [] ++ ([] : List String) ++ sectGo 800 [] long801 = [long801]
  rw [hsect0]
  simp

/-- C7 as stated is false on the code: neither chunker keeps every chunk
within its length bound.  On a source text that is one 801-character
paragraph with no sentence break, the fallback construction keeps the whole
paragraph as a single chunk of length 801 (above its 500 bound), and
split_text_into_sections, whose sentence splitter finds nothing to split,
also emits the whole paragraph as one chunk of length 801 (above its 800
bound). -/
theorem chunker_bound_counterexample :
    (¬ ∀ text : String,
        (fallbackChunks text).length ≤ 8 ∧ ∀ c ∈ fallbackChunks text, c.length ≤ 500) ∧
    (¬ ∀ text : String,
        (splitTextIntoSections text).length ≤ 8 ∧
          ∀ c ∈ splitTextIntoSections text, c.length ≤ 800) := by
  constructor
  · intro h1
    have e1 := (h1 long801).2 long801
      (by rw [fallbackChunks_long801]; exact List.mem_singleton.mpr rfl)
    rw [long801_length] at e1
    omega
  · intro h2
    have e2 := (h2 long801).2 long801
      (by rw [splitSections_long801]; exact List.mem_singleton.mpr rfl)
    rw [long801_length] at e2
    omega

theorem mapIdxGo_length {α β : Type} (f : Nat → α → β) :
    ∀ (i : Nat) (xs : List α), (mapIdxGo f i xs).length = xs.length
  | _, [] => rfl
  | i, _ :: xs => by
    simp only [mapIdxGo, List.length_cons]
    rw [mapIdxGo_length f (i + 1) xs]

/-- C7 (amended): the fallback construction builds slides from at most the
first 8 chunks, so the deck that reaches the caller has at most 8 slides; a
chunk itself may exceed the length bound, because a paragraph longer than the
bound alone is kept whole on this path (and the separate sentence-splitting
utility, which this path does not invoke, also emits an over-bound chunk
when a single sentence exceeds the bound). -/
theorem fallback_at_most_eight_slides (text guidance : String) :
    (createFallbackStructure text guidance).slides.length ≤ 8 := by
  simp only [createFallbackStructure]
  split
  · simp
  · rw [mapIdxGo_length, List.length_take]
    exact Nat.min_le_left _ _

theorem buildContentSlides_mem (layouts : List LayoutM) :
    ∀ (ds : List SlideData) (start i : Nat) (d : SlideData) (s : BuiltSlide),
      ds[i]? = some d → createSlideCore layouts d (start + i) = .ok s →
      s ∈ buildContentSlides layouts start ds := by
  intro ds
  induction ds with
  | nil => intro start i d s hg _; simp at hg
  | cons d0 ds ih =>
    intro start i d s hg hok
    cases i with
    | zero =>
      simp only [List.getElem?_cons_zero, Option.some.injEq] at hg
      subst hg
      rw [Nat.add_zero] at hok
      rw [buildContentSlides, hok]
      simp
    | succ j =>
      simp only [List.getElem?_cons_succ] at hg
      have hok2 : createSlideCore layouts d ((start + 1) + j) = .ok s := by
        rw [show start + 1 + j = start + (j + 1) from by omega]
        exact hok
      rw [buildContentSlides]
      exact List.mem_append_right _ (ih (start + 1) j d s hg hok2)

/-- C2: for every deck in which binding one slide errors, assembly catches
the error for that slide, continues processing every remaining slide, and
returns successfully with a document containing every slide that bound;
assembly never aborts on the first slide failure. -/
theorem assembly_skips_failing_slide (layouts : List LayoutM) (pres : PresData)
    (j : Nat) (d : SlideData) (e : String)
    (hj : pres.slides[j]? = some d)
    (herr : createSlideCore layouts d (j + 1) = .error e) :
    ∃ doc, createPresentationFromTemplate layouts pres = some doc ∧
      ∀ (i : Nat) (d2 : SlideData) (s : BuiltSlide),
        pres.slides[i]? = some d2 → createSlideCore layouts d2 (i + 1) = .ok s →
        s ∈ doc := by
  have hne : ¬ pres.slides.isEmpty = true := by
    intro h
    rw [List.isEmpty_iff] at h
    rw [h] at hj
    simp at hj
  refine ⟨_, by rw [createPresentationFromTemplate, if_neg hne], ?_⟩
  intro i d2 s hg hok
  exact List.mem_append_right _
    (buildContentSlides_mem layouts pres.slides 1 i d2 s hg (by rwa [Nat.add_comm 1 i]))

def c2Layout : LayoutM :=
  { name := "L0", placeholders := [⟨some 13, 0, 0, 0, 0, 0⟩, ⟨some 2, 1, 0, 0, 0, 0⟩] }

def c2Content : SlideData :=
  { title := some "A", type_ := some "content", content := some (.str "x"), speaker_notes := none }

def c2Image : SlideData :=
  { title := some "B", type_ := some "image", content := some (.str "y"), speaker_notes := none }

def c2Pres : PresData := { title := some "T", subtitle := some "S", slides := [c2Content, c2Image] }

/-- Witness for C2: on a one-layout template, the image-typed slide fails to
bind (its layout index is out of range) while the content slide binds and
appears in the assembled document. -/
theorem assembly_skips_failing_slide_witness :
    (c2Pres.slides[1]? = some c2Image ∧
      createSlideCore [c2Layout] c2Image 2 = Except.error "IndexError") ∧
    ∃ doc, createPresentationFromTemplate [c2Layout] c2Pres = some doc ∧
      ∀ (i : Nat) (d2 : SlideData) (s : BuiltSlide),
        c2Pres.slides[i]? = some d2 → createSlideCore [c2Layout] d2 (i + 1) = Except.ok s →
        s ∈ doc :=
  ⟨⟨rfl, rfl⟩, assembly_skips_failing_slide [c2Layout] c2Pres 1 c2Image "IndexError" rfl rfl⟩

def c10Pres : PresData :=
  { title := some "T", subtitle := some "S",
    slides := [{ title := some "A", type_ := some "content",
                 content := some (.str "x"), speaker_notes := none }] }

/-- C10 as stated is false on the code: when slide binding can fail (here, a
template with zero layouts, where even the synthesized title slide fails its
layout lookup), the assembled document has fewer slides than deck plus one —
assembly still returns successfully with the slides that bound. -/
theorem title_slide_count_counterexample :
    ¬ (∀ (layouts : List LayoutM) (pres : PresData) (doc : List BuiltSlide),
        pres.slides ≠ [] → createPresentationFromTemplate layouts pres = some doc →
        doc.length = pres.slides.length + 1) := by
  intro h
  have h2 := h [] c10Pres [] (by simp [c10Pres]) rfl
  simp [c10Pres] at h2

theorem chooseLayoutIndex_bounds (ty : String) (n : Nat) (hn : 2 ≤ n) :
    0 ≤ chooseLayoutIndex ty n ∧ chooseLayoutIndex ty n < (n : Int) := by
  have hn2 : (2 : Int) ≤ (n : Int) := by exact_mod_cast hn
  unfold chooseLayoutIndex
  split_ifs with h1 h2 h3 h4 <;> constructor <;> omega

theorem pyIndex_ok_of_bounds {α : Type} (xs : List α) (i : Int)
    (h0 : 0 ≤ i) (h1 : i < (xs.length : Int)) :
    ∃ x, pyIndex xs i = .ok x := by
  have hn : pyNormIdx xs.length i = i := if_neg (by omega)
  unfold pyIndex
  rw [hn, if_pos h0, List.getElem?_eq_getElem (by omega : i.toNat < xs.length)]
  exact ⟨_, rfl⟩

theorem createSlideCore_total (layouts : List LayoutM) (hn : 2 ≤ layouts.length)
    (d : SlideData) (idx : Nat) : ∃ s, createSlideCore layouts d idx = .ok s := by
  obtain ⟨h0, h1⟩ := chooseLayoutIndex_bounds (effType d) layouts.length hn
  obtain ⟨layout, hl⟩ := pyIndex_ok_of_bounds layouts _ h0 h1
  exact ⟨buildSlide layout d idx, by rw [createSlideCore, hl]⟩

theorem buildContentSlides_get (layouts : List LayoutM) (hn : 2 ≤ layouts.length) :
    ∀ (ds : List SlideData) (start : Nat),
      (buildContentSlides layouts start ds).length = ds.length ∧
      ∀ i d, ds[i]? = some d → ∃ s, createSlideCore layouts d (start + i) = .ok s ∧
          (buildContentSlides layouts start ds)[i]? = some s := by
  intro ds
  induction ds with
  | nil => intro start; exact ⟨rfl, by intro i d hg; simp at hg⟩
  | cons d0 ds ih =>
    intro start
    obtain ⟨s0, hs0⟩ := createSlideCore_total layouts hn d0 start
    constructor
    · rw [buildContentSlides, hs0]
      simp only [List.singleton_append, List.length_cons]
      rw [(ih (start + 1)).1]
    · intro i d hg
      cases i with
      | zero =>
        simp only [List.getElem?_cons_zero, Option.some.injEq] at hg
        subst hg
        refine ⟨s0, by rwa [Nat.add_zero], ?_⟩
        rw [buildContentSlides, hs0]
        simp
      | succ j =>
        simp only [List.getElem?_cons_succ] at hg
        obtain ⟨s, hok, hgi⟩ := (ih (start + 1)).2 j d hg
        refine ⟨s, by rwa [show start + 1 + j = start + (j + 1) from by omega] at hok, ?_⟩
        rw [buildContentSlides, hs0]
        simpa using hgi

/-- C10 (amended): provided every slide binds — which holds whenever the
template has at least two layouts — the assembled document contains exactly
one more slide than the deck: the synthesized title slide (from the deck
title and subtitle fields) sits at index 0, followed by one slide per deck
slide in the deck's original order, all pre-existing template slide
instances having been removed. -/
theorem assembled_deck_shape (layouts : List LayoutM) (pres : PresData)
    (hn : 2 ≤ layouts.length) (hne : pres.slides ≠ []) :
    ∃ doc, createPresentationFromTemplate layouts pres = some doc ∧
      doc.length = pres.slides.length + 1 ∧
      (∃ t, createSlideCore layouts (titleSlideData pres) 0 = .ok t ∧ doc[0]? = some t) ∧
      (∀ i d, pres.slides[i]? = some d →
        ∃ s, createSlideCore layouts d (i + 1) = .ok s ∧ doc[i + 1]? = some s) := by
  obtain ⟨t, ht⟩ := createSlideCore_total layouts hn (titleSlideData pres) 0
  have hb := buildContentSlides_get layouts hn pres.slides 1
  have hdoc : createSlideInto layouts [] (titleSlideData pres) 0 = [t] := by
    rw [createSlideInto, ht]
    rfl
  refine ⟨createSlideInto layouts [] (titleSlideData pres) 0 ++
            buildContentSlides layouts 1 pres.slides, ?_, ?_, ?_, ?_⟩
  · rw [createPresentationFromTemplate, if_neg (by simpa [List.isEmpty_iff] using hne)]
  · rw [hdoc, List.singleton_append, List.length_cons, hb.1]
  · exact ⟨t, ht, by rw [hdoc]; simp⟩
  · intro i d hg
    obtain ⟨s, hok, hgi⟩ := hb.2 i d hg
    refine ⟨s, by rwa [Nat.add_comm 1 i] at hok, ?_⟩
    rw [hdoc, List.singleton_append]
    simpa using hgi

def c10Layouts : List LayoutM := [c2Layout, c2Layout]

/-- Witness for the amended C10 on a two-layout template and a one-slide
deck. -/
theorem assembled_deck_shape_witness :
    (2 ≤ c10Layouts.length ∧ c10Pres.slides ≠ []) ∧
    ∃ doc, createPresentationFromTemplate c10Layouts c10Pres = some doc ∧
      doc.length = c10Pres.slides.length + 1 ∧
      (∃ t, createSlideCore c10Layouts (titleSlideData c10Pres) 0 = .ok t ∧ doc[0]? = some t) ∧
      (∀ i d, c10Pres.slides[i]? = some d →
        ∃ s, createSlideCore c10Layouts d (i + 1) = .ok s ∧ doc[i + 1]? = some s) :=
  ⟨⟨by decide, by simp [c10Pres]⟩,
   assembled_deck_shape c10Layouts c10Pres (by decide) (by simp [c10Pres])⟩

/-- Text reachable on a built slide: every paragraph bound into a
placeholder or into a synthesized text box. -/
def slideTexts (s : BuiltSlide) : List String :=
  (s.placeholders.map (fun p => p.paras)).flatten ++ (s.textboxes.map (fun tb => tb.paras)).flatten

theorem setFirstPh_any (pred q : BuiltPh → Bool)
    (hq : ∀ (p : BuiltPh) (paras : List String),
      q { phType := p.phType, phIdx := p.phIdx, paras := paras } = q p)
    (paras : List String) :
    ∀ phs : List BuiltPh, (setFirstPh pred paras phs).any q = phs.any q
  | [] => rfl
  | p :: rest => by
    rw [setFirstPh]
    split
    · simp only [List.any_cons]
      rw [hq]
    · simp only [List.any_cons, setFirstPh_any pred q hq paras rest]

theorem hasPh_titleStep (q : BuiltPh → Bool)
    (hq : ∀ (p : BuiltPh) (paras : List String),
      q { phType := p.phType, phIdx := p.phIdx, paras := paras } = q p)
    (base : BuiltSlide) (data : SlideData) (idx : Nat) :
    hasPh q (titleStep base data idx) = hasPh q base := by
  unfold titleStep hasPh
  split
  · exact setFirstPh_any _ q hq _ base.placeholders
  · rfl

theorem titleStep_textboxes (base : BuiltSlide) (data : SlideData) (idx : Nat) :
    (titleStep base data idx).textboxes = base.textboxes := by
  unfold titleStep
  split <;> rfl

theorem hasPh_addTitleContent (q : BuiltPh → Bool)
    (hq : ∀ (p : BuiltPh) (paras : List String),
      q { phType := p.phType, phIdx := p.phIdx, paras := paras } = q p)
    (sl : BuiltSlide) (data : SlideData) :
    hasPh q (addTitleContent sl data) = hasPh q sl := by
  unfold addTitleContent hasPh
  split
  · split
    · split
      · exact setFirstPh_any _ q hq _ sl.placeholders
      · rfl
    · rfl
  · rfl

theorem addTitleContent_textboxes (sl : BuiltSlide) (data : SlideData) :
    (addTitleContent sl data).textboxes = sl.textboxes := by
  unfold addTitleContent
  split
  · split
    · split <;> rfl
    · rfl
  · rfl

theorem hasPh_addBulletContent (q : BuiltPh → Bool)
    (hq : ∀ (p : BuiltPh) (paras : List String),
      q { phType := p.phType, phIdx := p.phIdx, paras := paras } = q p)
    (sl : BuiltSlide) (data : SlideData) :
    hasPh q (addBulletContent sl data) = hasPh q sl := by
  unfold addBulletContent hasPh
  split
  · exact setFirstPh_any _ q hq _ sl.placeholders
  · rfl

theorem addBulletContent_textboxes (sl : BuiltSlide) (data : SlideData) :
    (addBulletContent sl data).textboxes = sl.textboxes := by
  unfold addBulletContent
  split <;> rfl

theorem hasPh_addContentSlide (q : BuiltPh → Bool)
    (hq : ∀ (p : BuiltPh) (paras : List String),
      q { phType := p.phType, phIdx := p.phIdx, paras := paras } = q p)
    (sl : BuiltSlide) (data : SlideData) :
    hasPh q (addContentSlide sl data) = hasPh q sl := by
  unfold addContentSlide hasPh
  split
  · split
    · exact setFirstPh_any _ q hq _ sl.placeholders
    · rfl
  · rfl

theorem hasPh_contentStep (q : BuiltPh → Bool)
    (hq : ∀ (p : BuiltPh) (paras : List String),
      q { phType := p.phType, phIdx := p.phIdx, paras := paras } = q p)
    (sl : BuiltSlide) (data : SlideData) :
    hasPh q (contentStep sl data) = hasPh q sl := by
  unfold contentStep
  split
  · exact hasPh_addTitleContent q hq sl data
  · split
    · exact hasPh_addBulletContent q hq sl data
    · exact hasPh_addContentSlide q hq sl data

theorem notesStep_placeholders (sl : BuiltSlide) (data : SlideData) :
    (notesStep sl data).placeholders = sl.placeholders := by
  unfold notesStep
  split
  · split <;> rfl
  · rfl

theorem notesStep_textboxes (sl : BuiltSlide) (data : SlideData) :
    (notesStep sl data).textboxes = sl.textboxes := by
  unfold notesStep
  split
  · split <;> rfl
  · rfl

theorem hasPh_notesStep (q : BuiltPh → Bool) (sl : BuiltSlide) (data : SlideData) :
    hasPh q (notesStep sl data) = hasPh q sl := by
  unfold hasPh
  rw [notesStep_placeholders]

theorem hasPh_buildSlide (q : BuiltPh → Bool)
    (hq : ∀ (p : BuiltPh) (paras : List String),
      q { phType := p.phType, phIdx := p.phIdx, paras := paras } = q p)
    (layout : LayoutM) (data : SlideData) (idx : Nat) :
    hasPh q (buildSlide layout data idx) = hasPh q (cloneLayout layout) := by
  unfold buildSlide
  rw [hasPh_notesStep, hasPh_contentStep q hq, hasPh_titleStep q hq]

theorem slideTexts_clone (layout : LayoutM) : slideTexts (cloneLayout layout) = [] := by
  unfold slideTexts cloneLayout
  simp [List.map_map, Function.comp, List.flatten_eq_nil_iff]

theorem createSlideCore_ok_elim (layouts : List LayoutM) (data : SlideData) (idx : Nat)
    (s : BuiltSlide) (h : createSlideCore layouts data idx = .ok s) :
    ∃ layout, pyIndex layouts (chooseLayoutIndex (effType data) layouts.length) = .ok layout ∧
      s = buildSlide layout data idx := by
  unfold createSlideCore at h
  cases hp : pyIndex layouts (chooseLayoutIndex (effType data) layouts.length) with
  | error e => rw [hp] at h; cases h
  | ok layout =>
    rw [hp] at h
    injection h with h2
    exact ⟨layout, rfl, h2.symm⟩

def c3NoPh : LayoutM := { name := "L1", placeholders := [] }

def c3Data : SlideData :=
  { title := some "T", type_ := some "bullets",
    content := some (.list ["a", "b"]), speaker_notes := none }

/-- C3 as stated is false on the code: binding a bullets slide onto a layout
with neither a title placeholder nor a BODY placeholder silently drops both
the title and the content — no free text box is synthesized on the title
path or on the bullets path. -/
theorem bind_synthesis_counterexample :
    ¬ (∀ (layouts : List LayoutM) (data : SlideData) (idx : Nat) (s : BuiltSlide),
        createSlideCore layouts data idx = .ok s →
        effTitle data idx ∈ slideTexts s ∧
        (∀ xs, data.content = some (CVal.list xs) → xs ≠ [] →
          ∀ x ∈ xs, pyStrip x ∈ slideTexts s)) := by
  intro h
  obtain ⟨h1, -⟩ := h [c2Layout, c3NoPh] c3Data 1 (buildSlide c3NoPh c3Data 1) rfl
  rw [show slideTexts (buildSlide c3NoPh c3Data 1) = [] from rfl] at h1
  exact List.not_mem_nil _ h1

/-- C3 (amended): only slides handled by the generic content path (type
content, or any unrecognized type) get a synthesized free text box.  The
text boxes of a bound slide are exactly one box at the fixed default
position — one inch left, two inches top, eight by four inches — holding
the truthy content, when the slide takes the content path and the layout
exposes no BODY slot, and none in every other case (the title and bullets
paths never synthesize).  A slide whose layout has no title placeholder
has its title silently dropped: binding is invariant under changing the
title.  A bullets-typed slide whose layout has no BODY slot, and a
title-typed slide whose layout has no SUBTITLE slot, have their content
discarded: binding is invariant under changing the content. -/
theorem bind_synthesis_amended (layouts : List LayoutM) (data : SlideData) (idx : Nat)
    (s : BuiltSlide) (hok : createSlideCore layouts data idx = .ok s) :
    (s.textboxes =
      if effType data ≠ "title" ∧ effType data ≠ "bullets" ∧ hasPh isBodyPh s = false then
        [⟨914400, 1828800, 7315200, 3657600,
          if cvalTruthy (contentValOf data) then cvalParas (contentValOf data) else []⟩]
      else []) ∧
    (hasPh isTitlePh s = false → ∀ t' : Option String,
      createSlideCore layouts { data with title := t' } idx = .ok s) ∧
    (effType data = "bullets" → hasPh isBodyPh s = false → ∀ c' : Option CVal,
      createSlideCore layouts { data with content := c' } idx = .ok s) ∧
    (effType data = "title" → hasPh isSubtitlePh s = false → ∀ c' : Option CVal,
      createSlideCore layouts { data with content := c' } idx = .ok s) := by
  obtain ⟨layout, hpy, rfl⟩ := createSlideCore_ok_elim layouts data idx s hok
  have hsame : ∀ d0 : SlideData, effType d0 = effType data →
      createSlideCore layouts d0 idx = .ok (buildSlide layout d0 idx) := by
    intro d0 he
    unfold createSlideCore
    rw [he, hpy]
  refine ⟨?_, ?_, ?_, ?_⟩
  · by_cases h1 : effType data = "title"
    · rw [if_neg (by rintro ⟨ha, -, -⟩; exact ha h1)]
      unfold buildSlide
      rw [notesStep_textboxes]
      unfold contentStep
      rw [if_pos h1, addTitleContent_textboxes, titleStep_textboxes]
      rfl
    · by_cases h2 : effType data = "bullets"
      · rw [if_neg (by rintro ⟨-, hb, -⟩; exact hb h2)]
        unfold buildSlide
        rw [notesStep_textboxes]
        unfold contentStep
        rw [if_neg h1, if_pos h2, addBulletContent_textboxes, titleStep_textboxes]
        rfl
      · by_cases h3 : hasPh isBodyPh (buildSlide layout data idx) = false
        · rw [if_pos ⟨h1, h2, h3⟩]
          rw [hasPh_buildSlide isBodyPh (fun _ _ => rfl)] at h3
          unfold buildSlide
          rw [notesStep_textboxes]
          unfold contentStep
          rw [if_neg h1, if_neg h2]
          unfold addContentSlide
          rw [hasPh_titleStep isBodyPh (fun _ _ => rfl)]
          rw [if_neg (by rw [h3]; simp)]
          rw [titleStep_textboxes]
          rfl
        · rw [if_neg (by rintro ⟨-, -, hc⟩; exact h3 hc)]
          have h4 : hasPh isBodyPh (cloneLayout layout) = true := by
            have h5 := hasPh_buildSlide isBodyPh (fun _ _ => rfl) layout data idx
            cases h6 : hasPh isBodyPh (cloneLayout layout)
            · rw [h6] at h5
              exact absurd h5 h3
            · rfl
          unfold buildSlide
          rw [notesStep_textboxes]
          unfold contentStep
          rw [if_neg h1, if_neg h2]
          unfold addContentSlide
          rw [hasPh_titleStep isBodyPh (fun _ _ => rfl), if_pos h4]
          split
          · show (titleStep (cloneLayout layout) data idx).textboxes = []
            rw [titleStep_textboxes]
            rfl
          · rw [titleStep_textboxes]
            rfl
  · intro htitle t'
    have hclone : hasPh isTitlePh (cloneLayout layout) = false := by
      rw [← hasPh_buildSlide isTitlePh (fun _ _ => rfl) layout data idx]
      exact htitle
    rw [hsame { data with title := t' } rfl]
    congr 1
    have key0 : ∀ d0 : SlideData, titleStep (cloneLayout layout) d0 idx = cloneLayout layout := by
      intro d0
      unfold titleStep
      rw [if_neg (by rw [hclone]; simp)]
    unfold buildSlide
    rw [key0, key0]
    rfl
  · intro hty hbody c'
    have hbody2 : hasPh isBodyPh (cloneLayout layout) = false := by
      rw [← hasPh_buildSlide isBodyPh (fun _ _ => rfl) layout data idx]
      exact hbody
    rw [hsame { data with content := c' } rfl]
    congr 1
    have key : ∀ d0 : SlideData, effType d0 = "bullets" →
        buildSlide layout d0 idx = notesStep (titleStep (cloneLayout layout) d0 idx) d0 := by
      intro d0 hty0
      unfold buildSlide contentStep
      rw [if_neg (by rw [hty0]; decide), if_pos hty0]
      unfold addBulletContent
      rw [if_neg (by
        rintro ⟨hh, -⟩
        rw [hasPh_titleStep isBodyPh (fun _ _ => rfl), hbody2] at hh
        cases hh)]
    rw [key data hty, key { data with content := c' } hty]
    rfl
  · intro hty hsub c'
    have hsub2 : hasPh isSubtitlePh (cloneLayout layout) = false := by
      rw [← hasPh_buildSlide isSubtitlePh (fun _ _ => rfl) layout data idx]
      exact hsub
    rw [hsame { data with content := c' } rfl]
    congr 1
    have key : ∀ d0 : SlideData, effType d0 = "title" →
        buildSlide layout d0 idx = notesStep (titleStep (cloneLayout layout) d0 idx) d0 := by
      intro d0 hty0
      unfold buildSlide contentStep
      rw [if_pos hty0]
      unfold addTitleContent
      rw [if_neg (by
        intro hh
        rw [hasPh_titleStep isSubtitlePh (fun _ _ => rfl), hsub2] at hh
        cases hh)]
    rw [key data hty, key { data with content := c' } hty]
    rfl

/-- Witness for the amended C3: a content slide bound onto a layout with no
BODY placeholder gets exactly the synthesized default text box holding its
content. -/
theorem bind_synthesis_amended_witness :
    createSlideCore [c3NoPh, c3NoPh] c2Content 1 = .ok (buildSlide c3NoPh c2Content 1) ∧
    (buildSlide c3NoPh c2Content 1).textboxes =
      (if effType c2Content ≠ "title" ∧ effType c2Content ≠ "bullets" ∧
          hasPh isBodyPh (buildSlide c3NoPh c2Content 1) = false then
        [⟨914400, 1828800, 7315200, 3657600,
          if cvalTruthy (contentValOf c2Content) then cvalParas (contentValOf c2Content) else []⟩]
      else []) :=
  ⟨rfl,
   (bind_synthesis_amended [c3NoPh, c3NoPh] c2Content 1 (buildSlide c3NoPh c2Content 1) rfl).1⟩

/-- Character safety predicate of claim C9: not a path separator, not a
control character, not whitespace. -/
def goodChar (c : Char) : Bool :=
  !(c = '/') && !(c = '\\') && !isCtlChar c && !isPySpace c

/-- Absence of adjacent double underscores. -/
def noDblUnd : List Char → Bool
  | [] => true
  | [_] => true
  | a :: b :: rest => !(a = '_' && b = '_') && noDblUnd (b :: rest)

theorem noDblUnd_tail : ∀ (x : Char) (rest : List Char),
    noDblUnd (x :: rest) = true → noDblUnd rest = true
  | _, [], _ => rfl
  | _, [_], _ => rfl
  | x, b :: c :: r, h => by
    rw [noDblUnd] at h
    simp only [Bool.and_eq_true] at h
    exact h.2

theorem noDblUnd_append_left : ∀ (l t : List Char),
    noDblUnd (l ++ t) = true → noDblUnd l = true
  | [], _, _ => rfl
  | [_], _, _ => rfl
  | a :: b :: rest, t, h => by
    rw [noDblUnd]
    rw [show (a :: b :: rest) ++ t = a :: b :: (rest ++ t) from rfl, noDblUnd] at h
    simp only [Bool.and_eq_true] at h
    obtain ⟨h1, h2⟩ := h
    rw [h1]
    simpa using noDblUnd_append_left (b :: rest) t h2

theorem noDblUnd_of_prefix (l l2 : List Char) (h : l <+: l2)
    (h2 : noDblUnd l2 = true) : noDblUnd l = true := by
  obtain ⟨t, rfl⟩ := h
  exact noDblUnd_append_left l t h2

theorem noDblUnd_dropWhile (p : Char → Bool) : ∀ l : List Char,
    noDblUnd l = true → noDblUnd (l.dropWhile p) = true
  | [], _ => rfl
  | x :: xs, h => by
    rw [List.dropWhile_cons]
    split
    · exact noDblUnd_dropWhile p xs (noDblUnd_tail x xs h)
    · exact h

theorem squeezeUnd_head : ∀ (b : Char) (rest : List Char),
    (squeezeUnd (b :: rest)).head? = some b
  | _, [] => rfl
  | b, c :: r => by
    rw [squeezeUnd]
    split
    · next h =>
      simp only [Bool.and_eq_true, decide_eq_true_eq] at h
      obtain ⟨h1, h2⟩ := h
      rw [squeezeUnd_head c r, h1, h2]
    · rfl

theorem noDblUnd_squeezeUnd : ∀ cs : List Char, noDblUnd (squeezeUnd cs) = true
  | [] => rfl
  | [_] => rfl
  | a :: b :: rest => by
    rw [squeezeUnd]
    split
    · exact noDblUnd_squeezeUnd (b :: rest)
    · next h =>
      have hh := squeezeUnd_head b rest
      have ih := noDblUnd_squeezeUnd (b :: rest)
      obtain ⟨t, ht⟩ : ∃ t, squeezeUnd (b :: rest) = b :: t := by
        cases hsq : squeezeUnd (b :: rest) with
        | nil => rw [hsq] at hh; cases hh
        | cons x t =>
          rw [hsq] at hh
          simp only [List.head?_cons, Option.some.injEq] at hh
          exact ⟨t, by rw [hh]⟩
      rw [ht]
      rw [ht] at ih
      rw [noDblUnd, ih, Bool.and_true]
      have hx : (a = '_' && b = '_') = false := Bool.eq_false_iff.mpr h
      rw [hx]
      rfl

theorem squeezeUnd_subset : ∀ (cs : List Char) (c : Char), c ∈ squeezeUnd cs → c ∈ cs
  | [], _, h => h
  | [x], _, h => h
  | a :: b :: rest, c, h => by
    rw [squeezeUnd] at h
    split at h
    · exact List.mem_cons_of_mem a (squeezeUnd_subset (b :: rest) c h)
    · rcases List.mem_cons.mp h with rfl | h2
      · exact List.mem_cons_self _ _
      · exact List.mem_cons_of_mem a (squeezeUnd_subset (b :: rest) c h2)

theorem mem_of_mem_dropWhile (p : Char → Bool) (l : List Char) (c : Char)
    (h : c ∈ l.dropWhile p) : c ∈ l :=
  (List.dropWhile_suffix p).subset h

theorem mem_of_mem_pyStripChars (p : Char → Bool) (l : List Char) (c : Char)
    (h : c ∈ pyStripChars p l) : c ∈ l := by
  unfold pyStripChars at h
  rw [List.mem_reverse] at h
  have h2 := mem_of_mem_dropWhile p _ c h
  rw [List.mem_reverse] at h2
  exact mem_of_mem_dropWhile p _ c h2

theorem pyRStrip_initial (p : Char → Bool) (l : List Char) : pyRStrip p l <+: l := by
  unfold pyRStrip
  have h := List.reverse_prefix.mpr (List.dropWhile_suffix (l := l.reverse) p)
  rwa [List.reverse_reverse] at h

theorem dropWhile_head_false (p : Char → Bool) : ∀ (l : List Char) (a : Char) (t : List Char),
    l.dropWhile p = a :: t → p a = false
  | [], a, t, h => by cases h
  | x :: xs, a, t, h => by
    rw [List.dropWhile_cons] at h
    split at h
    · exact dropWhile_head_false p xs a t h
    · next hx =>
      injection h with h1 _
      rw [← h1]
      simpa using hx

theorem pyRStrip_head (p : Char → Bool) (a : Char) (t : List Char) (ha : p a = false) :
    ∃ t2, pyRStrip p (a :: t) = a :: t2 := by
  unfold pyRStrip
  rw [List.reverse_cons]
  suffices h : ∀ l : List Char, ∃ t2, ((l ++ [a]).dropWhile p).reverse = a :: t2 from h t.reverse
  intro l
  induction l with
  | nil => exact ⟨[], by simp [List.dropWhile_cons, ha]⟩
  | cons x xs ih =>
    by_cases hx : p x = true
    · simpa [List.dropWhile_cons, hx] using ih
    · refine ⟨xs.reverse ++ [x], ?_⟩
      rw [List.cons_append, List.dropWhile_cons, if_neg (by simp [hx])]
      simp

/-- Stage output characters are safe: every character of sanStage output is
either an underscore or an original character that passed the invalid,
control and whitespace screens. -/
theorem sanStage_good (cs : List Char) : ∀ c ∈ sanStage cs, goodChar c = true := by
  intro c hc
  have hc2 := mem_of_mem_pyStripChars _ _ c hc
  have hc3 := squeezeUnd_subset _ c hc2
  rw [List.mem_map] at hc3
  obtain ⟨d, hd, hdc⟩ := hc3
  rw [List.mem_filter] at hd
  obtain ⟨hd1, hd2⟩ := hd
  by_cases hus : isUnderscoreOrSpace d = true
  · rw [if_pos hus] at hdc
    rw [← hdc]
    decide
  · rw [if_neg hus] at hdc
    rw [List.mem_map] at hd1
    obtain ⟨e, -, hec⟩ := hd1
    have hus2 : isUnderscoreOrSpace d = false := by simpa using hus
    have hsp : isPySpace d = false := by
      unfold isUnderscoreOrSpace at hus2
      exact (Bool.or_eq_false_iff.mp hus2).2
    have hinv : invalidFileChar d = false := by
      by_cases he : invalidFileChar e = true
      · rw [if_pos he] at hec
        exfalso
        apply hus
        rw [← hec]
        decide
      · rw [if_neg he] at hec
        rw [← hec]
        simpa using he
    have hslash : ¬ d = '/' := fun h => by rw [h] at hinv; exact absurd hinv (by decide)
    have hback : ¬ d = '\\' := fun h => by rw [h] at hinv; exact absurd hinv (by decide)
    have hctl : isCtlChar d = false := by simpa using hd2
    rw [← hdc]
    unfold goodChar
    simp [hslash, hback, hctl, hsp]

theorem sanStage_noDbl (cs : List Char) : noDblUnd (sanStage cs) = true := by
  unfold sanStage pyStripChars
  apply noDblUnd_of_prefix _ _ (pyRStrip_initial _ _)
  exact noDblUnd_dropWhile _ _ (noDblUnd_squeezeUnd _)

theorem sanStage_head (cs : List Char) :
    sanStage cs = [] ∨ ∃ a t, sanStage cs = a :: t ∧ stripDotUnd a = false := by
  unfold sanStage pyStripChars
  cases hd : List.dropWhile stripDotUnd
      (squeezeUnd
        (((cs.map (fun c => if invalidFileChar c then '_' else c)).filter
            (fun c => !isCtlChar c)).map
          (fun c => if isUnderscoreOrSpace c then '_' else c))) with
  | nil => left; simp
  | cons a t =>
    right
    have ha := dropWhile_head_false _ _ _ _ hd
    obtain ⟨t2, ht2⟩ := pyRStrip_head stripDotUnd a t ha
    refine ⟨a, t2, ?_, ha⟩
    show pyRStrip stripDotUnd (a :: t) = a :: t2
    exact ht2

theorem reserved_data_length : ∀ r ∈ reservedNames, r.data.length ≤ 4 := by decide

theorem underscore_not_reserved (l : List Char) :
    ('_' :: l) ∉ reservedNames.map String.data := by
  intro h
  rw [List.mem_map] at h
  obtain ⟨r, hr, heq⟩ := h
  fin_cases hr <;> (injection heq with h1 _; exact absurd h1 (by decide))

theorem strMk_mem_reserved_iff (l : List Char) :
    (String.mk l ∈ reservedNames) ↔ l ∈ reservedNames.map String.data := by
  constructor
  · intro h
    exact List.mem_map.mpr ⟨String.mk l, h, rfl⟩
  · intro h
    obtain ⟨r, hr, heq⟩ := List.mem_map.mp h
    cases heq
    exact hr

theorem sanFinish_props (a : Char) (t : List Char) (ha : stripDotUnd a = false)
    (hgood : ∀ c ∈ a :: t, goodChar c = true) (hdbl : noDblUnd (a :: t) = true) :
    sanFinish (a :: t) 100 ≠ [] ∧
    (∀ c ∈ sanFinish (a :: t) 100, goodChar c = true) ∧
    noDblUnd (sanFinish (a :: t) 100) = true ∧
    (sanFinish (a :: t) 100).length ≤ 100 ∧
    ((sanFinish (a :: t) 100).map Char.toUpper) ∉ reservedNames.map String.data := by
  have haSp : (¬ a = ' ' ∧ ¬ a = '.') ∧ ¬ a = '_' := by simpa [stripDotUnd] using ha
  obtain ⟨t6, h6eq, h6pre, h6len⟩ :
      ∃ t6, sanTrunc (a :: t) 100 = a :: t6 ∧ sanTrunc (a :: t) 100 <+: (a :: t) ∧
        (sanTrunc (a :: t) 100).length ≤ 100 := by
    unfold sanTrunc
    split
    · next hlen =>
      have htake : (a :: t).take 100 = a :: t.take 99 := by
        rw [show (100 : Nat) = 99 + 1 from rfl, List.take_succ_cons]
      obtain ⟨t6, ht6⟩ :=
        pyRStrip_head (fun c => c = '_' || c = '.') a (t.take 99)
          (by simp [haSp.1.2, haSp.2])
      refine ⟨t6, by rw [htake, ht6], ?_, ?_⟩
      · exact (pyRStrip_initial _ _).trans (List.take_prefix _ _)
      · have hle := (pyRStrip_initial (fun c => c = '_' || c = '.') ((a :: t).take 100)).length_le
        have h2 : ((a :: t).take 100).length ≤ 100 := by
          rw [List.length_take]
          exact Nat.min_le_left _ _
        omega
    · next hlen =>
      exact ⟨t, rfl, List.prefix_refl _, by omega⟩
  obtain ⟨t7, h7eq⟩ :=
    pyRStrip_head (fun c => c = ' ' || c = '.') a t6 (by simp [haSp.1.1, haSp.1.2])
  have hs7 : pyRStrip (fun c => c = ' ' || c = '.') (sanTrunc (a :: t) 100) = a :: t7 := by
    rw [h6eq, h7eq]
  have h7pre : (a :: t7) <+: (a :: t) := by
    have h := pyRStrip_initial (fun c => c = ' ' || c = '.') (sanTrunc (a :: t) 100)
    rw [hs7, h6eq] at h
    exact h.trans (h6eq ▸ h6pre)
  have h7good : ∀ c ∈ a :: t7, goodChar c = true := fun c hc => hgood c (h7pre.subset hc)
  have h7dbl : noDblUnd (a :: t7) = true := noDblUnd_of_prefix _ _ h7pre hdbl
  have h7len : (a :: t7).length ≤ 100 := by
    have h := (pyRStrip_initial (fun c => c = ' ' || c = '.') (sanTrunc (a :: t) 100)).length_le
    rw [hs7] at h
    omega
  unfold sanFinish
  rw [hs7]
  unfold sanReserved
  split
  · next hmem =>
    refine ⟨by simp, ?_, ?_, ?_, ?_⟩
    · intro c hc
      rcases List.mem_cons.mp hc with rfl | hc2
      · decide
      · exact h7good c hc2
    · rw [noDblUnd, h7dbl, Bool.and_true]
      simp [haSp.2]
    · have hr := reserved_data_length _ hmem
      simp only [List.length_map, List.length_cons] at hr
      simp only [List.length_cons]
      omega
    · rw [List.map_cons, show Char.toUpper '_' = '_' from by decide]
      exact underscore_not_reserved _
  · next hmem =>
    refine ⟨by simp, h7good, h7dbl, h7len, ?_⟩
    intro hm
    exact hmem ((strMk_mem_reserved_iff _).mpr hm)

/-- C9: for every input string, sanitize_filename (at the default cap of
100) returns a non-empty name with no path separators, no control
characters and no whitespace, whose underscore runs are single (whitespace
and underscore runs were collapsed), of length at most 100, never equal
case-insensitively to a reserved device name such as CON or AUX; and an
input whose sanitized core is empty yields the default name presentation. -/
theorem sanitize_filename_safe (s : String) :
    sanitizeFilename s ≠ "" ∧
    (∀ c ∈ (sanitizeFilename s).data, goodChar c = true) ∧
    noDblUnd (sanitizeFilename s).data = true ∧
    (sanitizeFilename s).length ≤ 100 ∧
    ((sanitizeFilename s).data.map Char.toUpper) ∉ reservedNames.map String.data ∧
    (sanStage s.data = [] → sanitizeFilename s = "presentation") := by
  by_cases hs : s.data = []
  · have h1 : sanitizeFilename s = "presentation" := by
      unfold sanitizeFilename sanitizeFilenameL
      rw [if_pos hs]
    rw [h1]
    exact ⟨by decide, by decide, by decide, by decide, by decide, fun _ => rfl⟩
  · rcases sanStage_head s.data with hnil | ⟨a, t, heq, ha⟩
    · have h1 : sanitizeFilename s = "presentation" := by
        unfold sanitizeFilename sanitizeFilenameL
        rw [if_neg hs, hnil]
        rfl
      rw [h1]
      exact ⟨by decide, by decide, by decide, by decide, by decide, fun _ => rfl⟩
    · obtain ⟨hne, hgood, hdbl, hlen, hres⟩ :=
        sanFinish_props a t ha
          (by rw [← heq]; exact sanStage_good s.data)
          (by rw [← heq]; exact sanStage_noDbl s.data)
      have h1 : sanitizeFilename s = String.mk (sanFinish (a :: t) 100) := by
        unfold sanitizeFilename sanitizeFilenameL
        rw [if_neg hs]
        show String.mk
          (sanFinish (if sanStage s.data = [] then "presentation".data else sanStage s.data) 100) =
          String.mk (sanFinish (a :: t) 100)
        rw [heq, if_neg (List.cons_ne_nil a t)]
      rw [h1]
      refine ⟨?_, hgood, hdbl, hlen, hres, ?_⟩
      · intro h
        exact hne (congrArg String.data h)
      · intro h
        rw [heq] at h
        exact absurd h (List.cons_ne_nil a t)

/-- Witness for C9: an input that sanitizes to nothing yields the default
name. -/
theorem sanitize_filename_safe_witness :
    sanStage "....".data = [] ∧ sanitizeFilename "...." = "presentation" :=
  ⟨rfl, (sanitize_filename_safe "....").2.2.2.2.2 rfl⟩

end PPTGen
